import Mathlib

/-!
Shallow embedding of `src/backend/backend_app.py`, a small Flask application
managing an in-memory list of blog posts, together with proofs about its five
request handlers: `get_posts`, `search_posts`, `create_post`, `update_post`
and `delete_post`. Each handler is translated to a pure function from its
parsed request data and the current store to a response and the next store.
-/

namespace Masterblog

/-- A blog post record `{"id": ..., "title": ..., "content": ...}`. The value
type `V` of the `title`/`content` fields is a parameter: the seed data and the
search/sort handlers work on JSON strings (`V = String`), while `PUT` bodies
may carry arbitrary JSON values, which `update_post` writes verbatim. -/
structure Post (V : Type) where
  id : Nat
  title : V
  content : V
deriving DecidableEq, Repr

/-- The store: the module-level Python list `POSTS`. -/
abbrev Store (V : Type) := List (Post V)

/-- The two seed posts the module initializes `POSTS` with. -/
def POSTS : Store String :=
  [⟨1, "First post", "This is the first post."⟩,
   ⟨2, "Second post", "This is the second post."⟩]

/-- A small type of JSON values, used to exercise request bodies that carry
`null` or non-string data (Python is dynamically typed, so a `PUT` body may
hold any JSON value under `title`/`content`). -/
inductive JVal where
  | jnull
  | jstr (s : String)
  | jnum (n : Int)
  | jbool (b : Bool)
deriving DecidableEq, Repr

/-- A parsed JSON request body, restricted to the two keys the handlers read;
`none` means the key is absent. A missing, empty or malformed body is
modelled as both keys absent: in `create_post` the test
`not data or field not in data` computes the same missing-field list for a
falsy `data` (which has no keys) as plain key absence does, and in
`update_post` the expression `request.get_json(silent=True) or {}` turns a
missing or malformed body into the empty dict. -/
structure Body (V : Type) where
  title? : Option V
  content? : Option V
deriving DecidableEq, Repr

/-- An HTTP response: `jsonify(payload), status` on success or
`jsonify({"error": message}), status` on failure. -/
inductive Resp (A : Type) where
  | ok (status : Nat) (payload : A)
  | err (status : Nat) (message : String)
deriving DecidableEq, Repr

/-- Models CPython `str.lower()` by per-character lowercasing (`Char.toLower`
lowercases the ASCII letters, which covers every string handled here). -/
def pyLower (s : String) : String := ⟨s.data.map Char.toLower⟩

/-- Models the Python substring test `needle in hay` on lists of characters:
`true` iff `needle` occurs contiguously inside `hay` (always true for an
empty needle). -/
def strIn (needle : List Char) : List Char → Bool
  | [] => needle.isEmpty
  | c :: t => needle.isPrefixOf (c :: t) || strIn needle t

/-- The Python substring test `needle in hay` on strings. -/
def pyInStr (needle hay : String) : Bool := strIn needle.data hay.data

/-- `max(post["id"] for post in posts)`, with `0` for the empty list; the code
only evaluates the Python `max` on a non-empty store, where the two agree
because ids are naturals. -/
def maxId {V : Type} : Store V → Nat
  | [] => 0
  | p :: ps => Nat.max p.id (maxId ps)

/-- `[field for field in ("title", "content") if not data or field not in data]`:
the required fields whose key is absent (see `Body` for why a falsy body
coincides with both keys absent). -/
def missingFields {V : Type} (data : Body V) : List String :=
  (if data.title?.isNone then ["title"] else []) ++
  (if data.content?.isNone then ["content"] else [])

/-- Python `repr` of a string: single-quoted (none of the field names here
need escaping). -/
def pyRepr (s : String) : String :=
  String.singleton (Char.ofNat 39) ++ s ++ String.singleton (Char.ofNat 39)

/-- The f-string rendering of a Python list of strings, e.g.
a bracketed, comma-separated sequence of single-quoted names. -/
def pyReprList (xs : List String) : String :=
  "[" ++ String.intercalate (", ") (xs.map pyRepr) ++ "]"

/-- `create_post` (POST /api/posts). The Python code first computes `missing`
and returns 400 when it is non-empty; `missing` is non-empty exactly when the
`title` or `content` key is absent, which is the fallthrough case of this
match. Otherwise the new id is `max(ids) + 1` (`1` on an empty store) and the
new post is appended at the end. -/
def createPost {V : Type} (data : Body V) (posts : Store V) :
    Resp (Post V) × Store V :=
  match data.title?, data.content? with
  | some t, some c =>
    let newId := match posts with
      | [] => 1
      | _ => maxId posts + 1
    let newPost : Post V := ⟨newId, t, c⟩
    (Resp.ok 201 newPost, posts ++ [newPost])
  | _, _ =>
    (Resp.err 400 ("Missing fields: " ++ pyReprList (missingFields data)), posts)

/-- `next((post for post in posts if post["id"] == post_id), None)`: the
first post with the given id. -/
def findById {V : Type} (postId : Nat) (posts : Store V) : Option (Post V) :=
  posts.find? (fun p => p.id == postId)

/-- The mutation step of `update_post`: overwrite `title`/`content` exactly
when the corresponding key is present in the body. -/
def updateFields {V : Type} (data : Body V) (p : Post V) : Post V :=
  { p with
    title := data.title?.getD p.title
    content := data.content?.getD p.content }

/-- In-place mutation of the first post carrying the given id: Python mutates
the dict object returned by `next`, which is the first match, and leaves
every other list element untouched. -/
def replaceFirstById {V : Type} (postId : Nat) (f : Post V → Post V) :
    Store V → Store V
  | [] => []
  | p :: ps =>
    if p.id == postId then f p :: ps else p :: replaceFirstById postId f ps

/-- `update_post` (PUT /api/posts/<int:post_id>). -/
def updatePost {V : Type} (postId : Nat) (data : Body V) (posts : Store V) :
    Resp (Post V) × Store V :=
  match findById postId posts with
  | none => (Resp.err 404 ("Post not found"), posts)
  | some post =>
    (Resp.ok 200 (updateFields data post),
     replaceFirstById postId (updateFields data) posts)

/-- `POSTS.remove(post_to_delete)` where `post_to_delete` is the first post
carrying the given id: every earlier list element has a different id, hence
is a different dict, so the Python `remove` (which deletes the first equal
element) deletes exactly this one. -/
def removeFirstById {V : Type} (postId : Nat) : Store V → Store V
  | [] => []
  | p :: ps => if p.id == postId then ps else p :: removeFirstById postId ps

/-- `delete_post` (DELETE /api/posts/<int:post_id>). A found post dict is
non-empty, hence truthy, so `if not post_to_delete` is exactly the `None`
case. -/
def deletePost {V : Type} (postId : Nat) (posts : Store V) :
    Resp String × Store V :=
  match findById postId posts with
  | none => (Resp.err 404 ("Post not found"), posts)
  | some _ =>
    (Resp.ok 200
      ("Post with id " ++ toString postId ++ " has been deleted successfully."),
     removeFirstById postId posts)

/-- The filter predicate of `search_posts`:
`(title_query and title_query in post["title"].lower()) or
(content_query and content_query in post["content"].lower())`;
the queries are already lowercased by the caller, and a Python string is
truthy iff it is non-empty. -/
def postMatches (titleQuery contentQuery : String) (p : Post String) : Bool :=
  (!(titleQuery == "") && pyInStr titleQuery (pyLower p.title)) ||
  (!(contentQuery == "") && pyInStr contentQuery (pyLower p.content))

/-- `search_posts` (GET /api/posts/search): absent query parameters default
to the empty string; if both lowercased queries are empty the whole store is returned,
otherwise the OR-filter `postMatches` is applied. Always 200; never
mutates. -/
def searchPosts (titleArg contentArg : Option String) (posts : Store String) :
    Resp (Store String) × Store String :=
  let titleQuery := pyLower (titleArg.getD (""))
  let contentQuery := pyLower (contentArg.getD (""))
  if titleQuery = "" ∧ contentQuery = "" then (Resp.ok 200 posts, posts)
  else (Resp.ok 200 (posts.filter (postMatches titleQuery contentQuery)), posts)

/-- The sort key `lambda p: p[sort_field].lower()`; by the time it is
evaluated, `sort_field` is `"title"` or `"content"`. -/
def postKey (sortField : String) (p : Post String) : String :=
  pyLower (if sortField = "title" then p.title else p.content)

/-- The comparison underlying CPython `sorted(key=key, reverse=reverse)` on
the position-value pairs of the input: by key first (reversed when `reverse`
is set), original position second. -/
def sortKeyLe {α : Type} (key : α → String) (reverse : Bool) (a b : Nat × α) :
    Bool :=
  if key a.2 = key b.2 then decide (a.1 ≤ b.1)
  else if reverse then decide (key b.2 < key a.2) else decide (key a.2 < key b.2)

/-- CPython `sorted(l, key=key, reverse=reverse)`. Its documented behaviour
is a stable sort — elements with equal keys keep their original relative
order, also under `reverse=True` — which is exactly a merge sort of the
enumerated list under `sortKeyLe`, projected back. -/
def pySorted {α : Type} (key : α → String) (reverse : Bool) (l : List α) :
    List α :=
  (l.enum.mergeSort (sortKeyLe key reverse)).map Prod.snd

/-- `get_posts` (GET /api/posts). `sortArg` and `dirArg` are
`request.args.get("sort")` and the presence/value of `"direction"`;
`direction` defaults to `"asc"`. Mirrors the early return for "neither
parameter present", the two validation checks, the sorted branch, and the
final "only direction present" return of the original order. -/
def getPosts (sortArg dirArg : Option String) (posts : Store String) :
    Resp (Store String) × Store String :=
  let direction := dirArg.getD ("asc")
  if sortArg = none ∧ dirArg = none then (Resp.ok 200 posts, posts)
  else
    match sortArg with
    | some sortField =>
      if ¬(sortField = "title" ∨ sortField = "content") then
        (Resp.err 400 ("Invalid sort field. Allowed: title, content"), posts)
      else if ¬(pyLower direction = "asc" ∨ pyLower direction = "desc") then
        (Resp.err 400 ("Invalid direction. Allowed: asc, desc"), posts)
      else
        (Resp.ok 200
          (pySorted (postKey sortField) (pyLower direction == "desc") posts),
         posts)
    | none => (Resp.ok 200 posts, posts)

/-- The spec invariant: ids are pairwise distinct across all live posts. -/
def idsNodup {V : Type} (posts : Store V) : Prop := (posts.map Post.id).Nodup

/-- Spec-side characterization, written from the spec text for comparison
with `pySorted`: `r` is a stable sort of `l` by `key` in the requested
direction, i.e. some arrangement `s` of the position-value pairs of `l`
projects to `r` and is strictly ordered by key (descending when `reverse` is
set), with key ties strictly ordered by original position. -/
def IsStableSortBy {α : Type} (key : α → String) (reverse : Bool)
    (l r : List α) : Prop :=
  ∃ s : List (Nat × α),
    s.Perm l.enum ∧
    r = s.map Prod.snd ∧
    s.Pairwise (fun a b =>
      (key a.2 = key b.2 ∧ a.1 < b.1) ∨
      (key a.2 ≠ key b.2 ∧
        if reverse then key b.2 < key a.2 else key a.2 < key b.2))

/-! Helper lemmas. -/

theorem pyLower_eq_empty_iff (s : String) : pyLower s = "" ↔ s = "" := by
  unfold pyLower
  rw [String.ext_iff, String.ext_iff]
  simp

theorem le_maxId {V : Type} (posts : Store V) : ∀ p ∈ posts, p.id ≤ maxId posts := by
  induction posts with
  | nil => simp
  | cons a ps ih =>
    intro p hp
    rcases List.mem_cons.mp hp with rfl | hp
    · simp [maxId]
    · exact Nat.le_trans (ih p hp) (by simp [maxId])

theorem maxId_mem {V : Type} (posts : Store V) (h : posts ≠ []) :
    ∃ q ∈ posts, q.id = maxId posts := by
  induction posts with
  | nil => exact absurd rfl h
  | cons a ps ih =>
    by_cases hps : ps = []
    · subst hps
      exact ⟨a, by simp, by simp [maxId]⟩
    · obtain ⟨q, hq, hqid⟩ := ih hps
      by_cases hle : maxId ps ≤ a.id
      · exact ⟨a, by simp, by simp [maxId, Nat.max_eq_left hle]⟩
      · push_neg at hle
        exact ⟨q, by simp [hq], by
          simp [maxId, hqid, Nat.max_eq_right (Nat.le_of_lt hle)]⟩

theorem findById_eq_none_iff {V : Type} (postId : Nat) (posts : Store V) :
    findById postId posts = none ↔ ∀ p ∈ posts, p.id ≠ postId := by
  unfold findById
  rw [List.find?_eq_none]
  simp

theorem findById_some_split {V : Type} {postId : Nat} {posts : Store V}
    {p : Post V} (h : findById postId posts = some p) :
    p.id = postId ∧
    ∃ l1 l2, posts = l1 ++ p :: l2 ∧ (∀ q ∈ l1, q.id ≠ postId) ∧
      (∀ f, replaceFirstById postId f posts = l1 ++ f p :: l2) ∧
      removeFirstById postId posts = l1 ++ l2 := by
  induction posts with
  | nil => simp [findById, List.find?] at h
  | cons a ps ih =>
    by_cases ha : a.id = postId
    · have hb : (a.id == postId) = true := beq_iff_eq.mpr ha
      have hp : a = p := by simpa [findById, List.find?, hb] using h
      subst hp
      exact ⟨ha, [], ps, rfl, by simp,
        fun f => by simp [replaceFirstById, hb],
        by simp [removeFirstById, hb]⟩
    · have hb : (a.id == postId) = false := by simp [ha]
      have h' : findById postId ps = some p := by
        simpa [findById, List.find?, hb] using h
      obtain ⟨hpid, l1, l2, hsplit, hl1, hrep, hrem⟩ := ih h'
      refine ⟨hpid, a :: l1, l2, by simp [hsplit], ?_, ?_, ?_⟩
      · intro q hq
        rcases List.mem_cons.mp hq with rfl | hq
        · exact ha
        · exact hl1 q hq
      · intro f
        simp [replaceFirstById, hb, hrep f]
      · simp [removeFirstById, hb, hrem]

theorem updateFields_id {V : Type} (data : Body V) (p : Post V) :
    (updateFields data p).id = p.id := rfl

theorem replaceFirstById_map_id {V : Type} (postId : Nat) (f : Post V → Post V)
    (hf : ∀ p, (f p).id = p.id) (posts : Store V) :
    (replaceFirstById postId f posts).map Post.id = posts.map Post.id := by
  induction posts with
  | nil => rfl
  | cons a ps ih =>
    by_cases ha : (a.id == postId) = true
    · simp [replaceFirstById, ha, hf a]
    · simp only [Bool.not_eq_true] at ha
      simp [replaceFirstById, ha, ih]

theorem removeFirstById_sublist {V : Type} (postId : Nat) (posts : Store V) :
    (removeFirstById postId posts).Sublist posts := by
  induction posts with
  | nil => simp [removeFirstById]
  | cons a ps ih =>
    by_cases ha : (a.id == postId) = true
    · simp only [removeFirstById, ha, if_true]
      exact List.sublist_cons_self a ps
    · simp only [Bool.not_eq_true] at ha
      simp only [removeFirstById, ha, Bool.false_eq_true, if_false]
      exact ih.cons₂ a

theorem getPosts_snd (sortArg dirArg : Option String) (posts : Store String) :
    (getPosts sortArg dirArg posts).2 = posts := by
  cases sortArg with
  | none =>
    unfold getPosts
    split
    · rfl
    · rfl
  | some sf =>
    unfold getPosts
    split
    · rfl
    · dsimp only
      split
      · rfl
      · split
        · rfl
        · rfl

theorem searchPosts_snd (titleArg contentArg : Option String)
    (posts : Store String) :
    (searchPosts titleArg contentArg posts).2 = posts := by
  unfold searchPosts
  dsimp only
  split
  · rfl
  · rfl

theorem sortKeyLe_trans {α : Type} (key : α → String) (rev : Bool) :
    ∀ a b c : Nat × α, sortKeyLe key rev a b = true → sortKeyLe key rev b c = true →
      sortKeyLe key rev a c = true := by
  intro a b c hab hbc
  unfold sortKeyLe at hab hbc ⊢
  by_cases h1 : key a.2 = key b.2 <;> by_cases h2 : key b.2 = key c.2
  · rw [if_pos h1] at hab
    rw [if_pos h2] at hbc
    rw [if_pos (h1.trans h2)]
    simp only [decide_eq_true_eq] at *
    omega
  · rw [if_pos h1] at hab
    rw [if_neg h2] at hbc
    rw [if_neg (fun h => h2 (h1.symm.trans h)), h1]
    exact hbc
  · rw [if_neg h1] at hab
    rw [if_pos h2] at hbc
    rw [if_neg (fun h => h1 (h.trans h2.symm)), ← h2]
    exact hab
  · rw [if_neg h1] at hab
    rw [if_neg h2] at hbc
    cases rev
    · simp only [Bool.false_eq_true, if_false, decide_eq_true_eq] at hab hbc
      have h4 : key a.2 < key c.2 := lt_trans hab hbc
      rw [if_neg (ne_of_lt h4)]
      simp [h4]
    · simp only [if_true, decide_eq_true_eq] at hab hbc
      have h4 : key c.2 < key a.2 := lt_trans hbc hab
      rw [if_neg (ne_of_gt h4)]
      simp [h4]

theorem sortKeyLe_total {α : Type} (key : α → String) (rev : Bool) :
    ∀ a b : Nat × α,
      (sortKeyLe key rev a b || sortKeyLe key rev b a) = true := by
  intro a b
  unfold sortKeyLe
  by_cases h : key a.2 = key b.2
  · rw [if_pos h, if_pos h.symm]
    simp only [Bool.or_eq_true, decide_eq_true_eq]
    omega
  · rw [if_neg h, if_neg (Ne.symm h)]
    rcases lt_or_gt_of_ne h with hlt | hgt
    · cases rev <;> simp [hlt]
    · cases rev <;> simp [hgt]

theorem pySorted_stable {α : Type} (key : α → String) (rev : Bool) (l : List α) :
    IsStableSortBy key rev l (pySorted key rev l) := by
  refine ⟨l.enum.mergeSort (sortKeyLe key rev), List.mergeSort_perm _ _, rfl, ?_⟩
  have hsorted :
      (l.enum.mergeSort (sortKeyLe key rev)).Pairwise
        (fun a b => sortKeyLe key rev a b = true) :=
    List.sorted_mergeSort (sortKeyLe_trans key rev) (sortKeyLe_total key rev) _
  have hnd :
      (l.enum.mergeSort (sortKeyLe key rev)).Pairwise (fun a b => a.1 ≠ b.1) := by
    have h1 : (l.enum.map Prod.fst).Nodup := by
      rw [List.enum_map_fst]
      exact List.nodup_range _
    have h2 : ((l.enum.mergeSort (sortKeyLe key rev)).map Prod.fst).Nodup :=
      ((List.mergeSort_perm l.enum _).map Prod.fst).nodup_iff.mpr h1
    exact List.pairwise_map.mp h2
  refine (hsorted.and hnd).imp ?_
  intro a b hh
  obtain ⟨hle, hne⟩ := hh
  unfold sortKeyLe at hle
  by_cases hk : key a.2 = key b.2
  · rw [if_pos hk] at hle
    simp only [decide_eq_true_eq] at hle
    exact Or.inl ⟨hk, lt_of_le_of_ne hle hne⟩
  · rw [if_neg hk] at hle
    refine Or.inr ⟨hk, ?_⟩
    cases rev
    · simp only [Bool.false_eq_true, if_false, decide_eq_true_eq] at hle ⊢
      exact hle
    · simp only [if_true, decide_eq_true_eq] at hle ⊢
      exact hle

theorem postMatches_iff (tq cq : String) (p : Post String) :
    postMatches tq cq p = true ↔
      (tq ≠ "" ∧ pyInStr tq (pyLower p.title) = true) ∨
      (cq ≠ "" ∧ pyInStr cq (pyLower p.content) = true) := by
  simp [postMatches]

/-! Claims. -/

/-- Claim C8: when the sort field is absent, `get_posts` returns the store in
its current natural (insertion) order with status 200, whatever the direction
parameter (present or not, valid or not) — the direction is neither consulted
nor validated. -/
theorem getPosts_no_sortField (dirArg : Option String) (posts : Store String) :
    getPosts none dirArg posts = (Resp.ok 200 posts, posts) := by
  cases dirArg with
  | none => rfl
  | some d => rfl

/-- Claim C7: with a sort field present, a field outside
{"title", "content"} yields 400 "Invalid sort field. Allowed: title, content"
regardless of the direction (the field check takes precedence), and with a
valid field a direction outside {"asc", "desc"} (case-insensitively, default
"asc") yields 400 "Invalid direction. Allowed: asc, desc". -/
theorem getPosts_invalid_params (sortField : String) (dirArg : Option String)
    (posts : Store String) :
    (¬(sortField = "title" ∨ sortField = "content") →
      getPosts (some sortField) dirArg posts =
        (Resp.err 400 ("Invalid sort field. Allowed: title, content"), posts)) ∧
    ((sortField = "title" ∨ sortField = "content") →
      ¬(pyLower (dirArg.getD ("asc")) = "asc" ∨ pyLower (dirArg.getD ("asc")) = "desc") →
      getPosts (some sortField) dirArg posts =
        (Resp.err 400 ("Invalid direction. Allowed: asc, desc"), posts)) := by
  constructor
  · intro hbad
    unfold getPosts
    dsimp only
    rw [if_neg (by simp), if_pos hbad]
  · intro hgood hdir
    unfold getPosts
    dsimp only
    rw [if_neg (by simp), if_neg (fun h => h hgood), if_pos hdir]

theorem getPosts_invalid_params_witness :
    getPosts (some ("date")) none POSTS =
      (Resp.err 400 ("Invalid sort field. Allowed: title, content"), POSTS) ∧
    getPosts (some ("title")) (some ("down")) POSTS =
      (Resp.err 400 ("Invalid direction. Allowed: asc, desc"), POSTS) :=
  ⟨(getPosts_invalid_params ("date") none POSTS).1 (by decide),
   (getPosts_invalid_params ("title") (some ("down")) POSTS).2 (by decide) (by decide)⟩

/-- Claim C3: for a sort field in {"title", "content"} and a direction in
{"asc", "desc"} (case-insensitively, defaulting to "asc"), `get_posts`
returns 200 with a stable sort of the store by the lowercased text
value of the chosen field in the requested direction — key ties keep their
original relative order (`IsStableSortBy`) — while the stored collection
itself is returned unchanged (the sorted list is a derived view). -/
theorem getPosts_valid_sort (sortField : String) (dirArg : Option String)
    (posts : Store String)
    (hsf : sortField = "title" ∨ sortField = "content")
    (hdir : pyLower (dirArg.getD ("asc")) = "asc" ∨
      pyLower (dirArg.getD ("asc")) = "desc") :
    getPosts (some sortField) dirArg posts =
      (Resp.ok 200
        (pySorted (postKey sortField) (pyLower (dirArg.getD ("asc")) == "desc") posts),
       posts) ∧
    IsStableSortBy (postKey sortField) (pyLower (dirArg.getD ("asc")) == "desc")
      posts
      (pySorted (postKey sortField) (pyLower (dirArg.getD ("asc")) == "desc") posts) := by
  constructor
  · unfold getPosts
    dsimp only
    rw [if_neg (by simp), if_neg (fun h => h hsf), if_neg (fun h => h hdir)]
  · exact pySorted_stable _ _ _

theorem getPosts_valid_sort_witness :
    getPosts (some ("title")) (some ("desc")) POSTS =
      (Resp.ok 200
        (pySorted (postKey ("title")) (pyLower ((some ("desc")).getD ("asc")) == "desc") POSTS),
       POSTS) ∧
    IsStableSortBy (postKey ("title")) (pyLower ((some ("desc")).getD ("asc")) == "desc")
      POSTS
      (pySorted (postKey ("title")) (pyLower ((some ("desc")).getD ("asc")) == "desc") POSTS) :=
  getPosts_valid_sort ("title") (some ("desc")) POSTS (by decide) (by decide)

/-- Claim C2: if both search terms are absent or empty, `search_posts`
returns the whole store unfiltered; otherwise it returns, still in natural
order (a sublist of the store), exactly the posts whose lowercased title
contains the non-empty lowercased title term OR whose lowercased content
contains the non-empty lowercased content term. -/
theorem searchPosts_correct (titleArg contentArg : Option String)
    (posts : Store String) :
    (titleArg.getD ("") = "" ∧ contentArg.getD ("") = "" →
      searchPosts titleArg contentArg posts = (Resp.ok 200 posts, posts)) ∧
    (¬(titleArg.getD ("") = "" ∧ contentArg.getD ("") = "") →
      ∃ r, searchPosts titleArg contentArg posts = (Resp.ok 200 r, posts) ∧
        r.Sublist posts ∧
        ∀ p, p ∈ r ↔ p ∈ posts ∧
          ((titleArg.getD ("") ≠ "" ∧
             pyInStr (pyLower (titleArg.getD (""))) (pyLower p.title) = true) ∨
           (contentArg.getD ("") ≠ "" ∧
             pyInStr (pyLower (contentArg.getD (""))) (pyLower p.content) = true))) := by
  constructor
  · rintro ⟨ht, hc⟩
    unfold searchPosts
    dsimp only
    rw [if_pos ⟨by rw [ht]; rfl, by rw [hc]; rfl⟩]
  · intro hne
    have hcond :
        ¬(pyLower (titleArg.getD ("")) = "" ∧ pyLower (contentArg.getD ("")) = "") := by
      rintro ⟨h1, h2⟩
      exact hne ⟨(pyLower_eq_empty_iff _).mp h1, (pyLower_eq_empty_iff _).mp h2⟩
    refine ⟨posts.filter
        (postMatches (pyLower (titleArg.getD (""))) (pyLower (contentArg.getD ("")))),
      ?_, List.filter_sublist _, ?_⟩
    · unfold searchPosts
      dsimp only
      rw [if_neg hcond]
    · intro p
      rw [List.mem_filter, postMatches_iff,
        show (pyLower (titleArg.getD ("")) ≠ "") ↔ (titleArg.getD ("") ≠ "") from
          not_congr (pyLower_eq_empty_iff _),
        show (pyLower (contentArg.getD ("")) ≠ "") ↔ (contentArg.getD ("") ≠ "") from
          not_congr (pyLower_eq_empty_iff _)]

theorem searchPosts_correct_witness :
    ∃ r, searchPosts (some ("first")) (some ("")) POSTS = (Resp.ok 200 r, POSTS) ∧
      r.Sublist POSTS ∧
      ∀ p, p ∈ r ↔ p ∈ POSTS ∧
        (((some ("first")).getD ("") ≠ "" ∧
           pyInStr (pyLower ((some ("first")).getD (""))) (pyLower p.title) = true) ∨
         (((some ("")) : Option String).getD ("") ≠ "" ∧
           pyInStr (pyLower (((some ("")) : Option String).getD (""))) (pyLower p.content) = true)) :=
  (searchPosts_correct (some ("first")) (some ("")) POSTS).2 (by decide)

/-- Claim C1, counterexample: the claim says a create request whose title is
empty fails with a 400 validation error, but `create_post` only tests key
PRESENCE (`field not in data`), so a present-but-empty title is accepted and
the post is created with 201. -/
theorem createPost_accepts_empty_counterexample :
    (createPost (Body.mk (some ("")) (some ("hello"))) POSTS).1 =
      Resp.ok 201 ⟨3, "", "hello"⟩ := rfl

/-- Claim C1 (amended): `create_post` fails with 400 and the
"Missing fields: [...]" error listing exactly the required fields whose KEY
is absent from the body (a missing or falsy body counts as both keys absent),
leaving the store unchanged; when both keys are present it succeeds with 201
and the created post, accepting any present value verbatim — empty or null
included. -/
theorem createPost_validation {V : Type} (data : Body V) (posts : Store V) :
    (∀ t c, data.title? = some t → data.content? = some c →
      ∃ newPost : Post V, (createPost data posts).1 = Resp.ok 201 newPost ∧
        newPost.title = t ∧ newPost.content = c ∧
        (createPost data posts).2 = posts ++ [newPost]) ∧
    ((data.title? = none ∨ data.content? = none) →
      (createPost data posts).1 =
        Resp.err 400 ("Missing fields: " ++ pyReprList (missingFields data)) ∧
      (createPost data posts).2 = posts ∧
      missingFields data ≠ [] ∧
      (∀ f, f ∈ missingFields data ↔
        (f = "title" ∧ data.title? = none) ∨
        (f = "content" ∧ data.content? = none))) := by
  constructor
  · intro t c ht hc
    refine ⟨⟨(match posts with | [] => 1 | _ => maxId posts + 1), t, c⟩, ?_, rfl, rfl, ?_⟩
    · unfold createPost
      rw [ht, hc]
    · unfold createPost
      rw [ht, hc]
  · intro hmiss
    cases data with
    | mk topt copt =>
      cases topt <;> cases copt <;> simp_all [createPost, missingFields]

theorem createPost_validation_witness :
    ∃ newPost : Post String,
      (createPost (Body.mk (some ("T")) (some ("C"))) POSTS).1 = Resp.ok 201 newPost ∧
      newPost.title = "T" ∧ newPost.content = "C" ∧
      (createPost (Body.mk (some ("T")) (some ("C"))) POSTS).2 = POSTS ++ [newPost] :=
  (createPost_validation (Body.mk (some ("T")) (some ("C"))) POSTS).1 ("T") ("C") rfl rfl

/-- Claim C4: a valid create appends the new post at the end of the store —
leaving the existing elements and their order unchanged — and its id is
`q.id + 1` where `q` carries the maximum id among the existing posts, or `1`
when the store is empty. -/
theorem createPost_id_assignment {V : Type} (data : Body V) (posts : Store V)
    (t c : V) (ht : data.title? = some t) (hc : data.content? = some c) :
    ∃ newPost : Post V,
      (createPost data posts).1 = Resp.ok 201 newPost ∧
      (createPost data posts).2 = posts ++ [newPost] ∧
      (posts = [] → newPost.id = 1) ∧
      (posts ≠ [] →
        ∃ q ∈ posts, newPost.id = q.id + 1 ∧ ∀ p ∈ posts, p.id ≤ q.id) := by
  refine ⟨⟨(match posts with | [] => 1 | _ => maxId posts + 1), t, c⟩, ?_, ?_, ?_, ?_⟩
  · unfold createPost
    rw [ht, hc]
  · unfold createPost
    rw [ht, hc]
  · intro h
    subst h
    rfl
  · intro h
    obtain ⟨q, hq, hqid⟩ := maxId_mem posts h
    refine ⟨q, hq, ?_, ?_⟩
    · cases posts with
      | nil => exact absurd rfl h
      | cons a ps => simp [hqid]
    · intro p hp
      exact hqid ▸ le_maxId posts p hp

theorem createPost_id_assignment_witness :
    ∃ newPost : Post String,
      (createPost (Body.mk (some ("A")) (some ("B"))) POSTS).1 = Resp.ok 201 newPost ∧
      (createPost (Body.mk (some ("A")) (some ("B"))) POSTS).2 = POSTS ++ [newPost] ∧
      (POSTS = [] → newPost.id = 1) ∧
      (POSTS ≠ [] →
        ∃ q ∈ POSTS, newPost.id = q.id + 1 ∧ ∀ p ∈ POSTS, p.id ≤ q.id) :=
  createPost_id_assignment (Body.mk (some ("A")) (some ("B"))) POSTS ("A") "B" rfl rfl

/-- Claim C5: updating an existing id overwrites exactly the fields whose
key is present in the body (a missing/malformed body, modelled as both keys
absent, updates nothing and is not an error), keeps the id of the post, leaves
every other post untouched (the store is split around the single modified
position), and returns the merged post with 200. -/
theorem updatePost_partial_update {V : Type} (postId : Nat) (data : Body V)
    (posts : Store V) (p : Post V) (hfind : findById postId posts = some p) :
    (updatePost postId data posts).1 = Resp.ok 200 (updateFields data p) ∧
    (updateFields data p).id = p.id ∧
    (data.title? = none → (updateFields data p).title = p.title) ∧
    (∀ v, data.title? = some v → (updateFields data p).title = v) ∧
    (data.content? = none → (updateFields data p).content = p.content) ∧
    (∀ v, data.content? = some v → (updateFields data p).content = v) ∧
    (data.title? = none ∧ data.content? = none → updateFields data p = p) ∧
    ∃ l1 l2, posts = l1 ++ p :: l2 ∧ (∀ q ∈ l1, q.id ≠ postId) ∧
      (updatePost postId data posts).2 = l1 ++ updateFields data p :: l2 := by
  obtain ⟨hpid, l1, l2, hsplit, hl1, hrep, hrem⟩ := findById_some_split hfind
  refine ⟨?_, rfl, ?_, ?_, ?_, ?_, ?_, l1, l2, hsplit, hl1, ?_⟩
  · unfold updatePost
    rw [hfind]
  · intro h
    simp [updateFields, h]
  · intro v h
    simp [updateFields, h]
  · intro h
    simp [updateFields, h]
  · intro v h
    simp [updateFields, h]
  · rintro ⟨h1, h2⟩
    simp [updateFields, h1, h2]
  · unfold updatePost
    rw [hfind]
    dsimp only
    exact hrep _

theorem updatePost_partial_update_witness :
    (updatePost 1 (Body.mk none (some ("updated"))) POSTS).1 =
      Resp.ok 200 (updateFields (Body.mk none (some ("updated")))
        ⟨1, "First post", "This is the first post."⟩) ∧
    (updateFields (Body.mk none (some ("updated")))
      ⟨1, "First post", "This is the first post."⟩).id =
      (⟨1, "First post", "This is the first post."⟩ : Post String).id ∧
    ((Body.mk none (some ("updated")) : Body String).title? = none →
      (updateFields (Body.mk none (some ("updated")))
        ⟨1, "First post", "This is the first post."⟩).title = "First post") ∧
    (∀ v, (Body.mk none (some ("updated")) : Body String).title? = some v →
      (updateFields (Body.mk none (some ("updated")))
        ⟨1, "First post", "This is the first post."⟩).title = v) ∧
    ((Body.mk none (some ("updated")) : Body String).content? = none →
      (updateFields (Body.mk none (some ("updated")))
        ⟨1, "First post", "This is the first post."⟩).content =
        "This is the first post.") ∧
    (∀ v, (Body.mk none (some ("updated")) : Body String).content? = some v →
      (updateFields (Body.mk none (some ("updated")))
        ⟨1, "First post", "This is the first post."⟩).content = v) ∧
    ((Body.mk none (some ("updated")) : Body String).title? = none ∧
      (Body.mk none (some ("updated")) : Body String).content? = none →
      updateFields (Body.mk none (some ("updated")))
        ⟨1, "First post", "This is the first post."⟩ =
        ⟨1, "First post", "This is the first post."⟩) ∧
    ∃ l1 l2, POSTS = l1 ++ ⟨1, "First post", "This is the first post."⟩ :: l2 ∧
      (∀ q ∈ l1, q.id ≠ 1) ∧
      (updatePost 1 (Body.mk none (some ("updated"))) POSTS).2 =
        l1 ++ updateFields (Body.mk none (some ("updated")))
          ⟨1, "First post", "This is the first post."⟩ :: l2 :=
  updatePost_partial_update 1 (Body.mk none (some ("updated"))) POSTS
    ⟨1, "First post", "This is the first post."⟩ rfl

/-- Claim C6: update and delete fail with 404 {"error": "Post not found"}
exactly when no live post carries the requested id, and in that case the
store is unchanged; deleting an existing id returns 200 with the exact
message "Post with id {id} has been deleted successfully." and removes the
(first) post carrying that id from the store. -/
theorem update_delete_notFound {V : Type} (postId : Nat) (posts : Store V) :
    (∀ data : Body V,
      ((updatePost postId data posts).1 = Resp.err 404 ("Post not found") ↔
        ∀ p ∈ posts, p.id ≠ postId) ∧
      ((∀ p ∈ posts, p.id ≠ postId) → (updatePost postId data posts).2 = posts)) ∧
    (((deletePost postId posts).1 = Resp.err 404 ("Post not found") ↔
        ∀ p ∈ posts, p.id ≠ postId) ∧
      ((∀ p ∈ posts, p.id ≠ postId) → (deletePost postId posts).2 = posts)) ∧
    (∀ p ∈ posts, p.id = postId →
      (deletePost postId posts).1 =
        Resp.ok 200 ("Post with id " ++ toString postId ++
          " has been deleted successfully.") ∧
      ∃ l1 l2 q, posts = l1 ++ q :: l2 ∧ q.id = postId ∧
        (∀ r ∈ l1, r.id ≠ postId) ∧ (deletePost postId posts).2 = l1 ++ l2) := by
  refine ⟨?_, ?_, ?_⟩
  · intro data
    cases hf : findById postId posts with
    | none =>
      have he : updatePost postId data posts = (Resp.err 404 ("Post not found"), posts) := by
        unfold updatePost
        rw [hf]
      exact ⟨⟨fun _ => (findById_eq_none_iff _ _).mp hf, fun _ => by rw [he]⟩,
        fun _ => by rw [he]⟩
    | some q =>
      obtain ⟨hqid, l1, l2, hsplit, hl1, hrep, hrem⟩ := findById_some_split hf
      have he : (updatePost postId data posts).1 = Resp.ok 200 (updateFields data q) := by
        unfold updatePost
        rw [hf]
      have hqmem : q ∈ posts := by
        rw [hsplit]
        simp
      refine ⟨⟨fun h => ?_, fun hall => ?_⟩, fun hall => ?_⟩
      · rw [he] at h
        exact absurd h (by simp)
      · exact absurd hqid (hall q hqmem)
      · exact absurd hqid (hall q hqmem)
  · cases hf : findById postId posts with
    | none =>
      have he : deletePost postId posts = (Resp.err 404 ("Post not found"), posts) := by
        unfold deletePost
        rw [hf]
      exact ⟨⟨fun _ => (findById_eq_none_iff _ _).mp hf, fun _ => by rw [he]⟩,
        fun _ => by rw [he]⟩
    | some q =>
      obtain ⟨hqid, l1, l2, hsplit, hl1, hrep, hrem⟩ := findById_some_split hf
      have he : (deletePost postId posts).1 =
          Resp.ok 200 ("Post with id " ++ toString postId ++
            " has been deleted successfully.") := by
        unfold deletePost
        rw [hf]
      have hqmem : q ∈ posts := by
        rw [hsplit]
        simp
      refine ⟨⟨fun h => ?_, fun hall => ?_⟩, fun hall => ?_⟩
      · rw [he] at h
        exact absurd h (by simp)
      · exact absurd hqid (hall q hqmem)
      · exact absurd hqid (hall q hqmem)
  · intro p hp hpid
    cases hf : findById postId posts with
    | none => exact absurd hpid ((findById_eq_none_iff _ _).mp hf p hp)
    | some q =>
      obtain ⟨hqid, l1, l2, hsplit, hl1, hrep, hrem⟩ := findById_some_split hf
      refine ⟨?_, l1, l2, q, hsplit, hqid, hl1, ?_⟩
      · unfold deletePost
        rw [hf]
      · unfold deletePost
        rw [hf]
        dsimp only
        exact hrem

theorem update_delete_notFound_witness :
    (updatePost 999 (Body.mk (V := String) none none) POSTS).1 =
      Resp.err 404 ("Post not found") ∧
    (deletePost 999 POSTS).2 = POSTS ∧
    (deletePost 2 POSTS).1 =
      Resp.ok 200 ("Post with id " ++ toString 2 ++
        " has been deleted successfully.") :=
  ⟨((update_delete_notFound 999 POSTS).1 (Body.mk none none)).1.mpr (by decide),
   (update_delete_notFound 999 POSTS).2.1.2 (by decide),
   ((update_delete_notFound 2 POSTS).2.2
     ⟨2, "Second post", "This is the second post."⟩ (by decide) rfl).1⟩

/-- Claim C10: `update_post` never validates field values — its only error
is 404 "Post not found" for an unknown id, and for an existing post any value
present under `title` or `content` in the body is written verbatim, whatever
it is (empty string, null, number, ...: the value type `V` is arbitrary). -/
theorem updatePost_no_validation {V : Type} (postId : Nat) (data : Body V)
    (posts : Store V) :
    (∀ st msg, (updatePost postId data posts).1 = Resp.err st msg →
      st = 404 ∧ msg = "Post not found") ∧
    (∀ p, findById postId posts = some p →
      (updatePost postId data posts).1 = Resp.ok 200 (updateFields data p) ∧
      (∀ v, data.title? = some v → (updateFields data p).title = v) ∧
      (∀ v, data.content? = some v → (updateFields data p).content = v)) := by
  constructor
  · intro st msg h
    cases hf : findById postId posts with
    | none =>
      unfold updatePost at h
      rw [hf] at h
      dsimp only at h
      rw [Resp.err.injEq] at h
      exact ⟨h.1.symm, h.2.symm⟩
    | some q =>
      unfold updatePost at h
      rw [hf] at h
      exact absurd h (by simp)
  · intro p hp
    refine ⟨?_, ?_, ?_⟩
    · unfold updatePost
      rw [hp]
    · intro v h
      simp [updateFields, h]
    · intro v h
      simp [updateFields, h]

theorem updatePost_no_validation_witness :
    (updatePost 1 (Body.mk (some JVal.jnull) (some (JVal.jnum 5)))
        [⟨1, JVal.jstr ("First post"), JVal.jstr ("Body")⟩]).1 =
      Resp.ok 200 (updateFields (Body.mk (some JVal.jnull) (some (JVal.jnum 5)))
        ⟨1, JVal.jstr ("First post"), JVal.jstr ("Body")⟩) ∧
    (updateFields (Body.mk (some JVal.jnull) (some (JVal.jnum 5)))
      ⟨1, JVal.jstr ("First post"), JVal.jstr ("Body")⟩).title = JVal.jnull ∧
    (updateFields (Body.mk (some JVal.jnull) (some (JVal.jnum 5)))
      ⟨1, JVal.jstr ("First post"), JVal.jstr ("Body")⟩).content = JVal.jnum 5 := by
  have h := (updatePost_no_validation 1
    (Body.mk (some JVal.jnull) (some (JVal.jnum 5)))
    [⟨1, JVal.jstr ("First post"), JVal.jstr ("Body")⟩]).2
    ⟨1, JVal.jstr ("First post"), JVal.jstr ("Body")⟩ rfl
  exact ⟨h.1, h.2.1 _ rfl, h.2.2 _ rfl⟩

/-- Claim C9: every operation preserves pairwise-distinct ids. Update never
touches any id (the id list is preserved verbatim), create assigns
`max + 1`, which strictly exceeds every live id, delete removes an element
(a sublist keeps distinctness), and list/search leave the store unchanged. -/
theorem operations_preserve_id_invariant {V : Type} (posts : Store V)
    (h : idsNodup posts) :
    (∀ data : Body V, idsNodup (createPost data posts).2) ∧
    (∀ (data : Body V) t c, data.title? = some t → data.content? = some c →
      ∀ newPost : Post V, (createPost data posts).1 = Resp.ok 201 newPost →
        ∀ p ∈ posts, p.id < newPost.id) ∧
    (∀ postId (data : Body V),
      (updatePost postId data posts).2.map Post.id = posts.map Post.id ∧
      idsNodup (updatePost postId data posts).2) ∧
    (∀ postId, idsNodup (deletePost postId posts).2) ∧
    (∀ posts' : Store String, idsNodup posts' →
      ∀ sortArg dirArg titleArg contentArg,
        idsNodup (getPosts sortArg dirArg posts').2 ∧
        idsNodup (searchPosts titleArg contentArg posts').2) := by
  refine ⟨?_, ?_, ?_, ?_, ?_⟩
  · intro data
    cases hto : data.title? with
    | none =>
      cases hco : data.content? with
      | none =>
        unfold createPost
        rw [hto, hco]
        exact h
      | some c =>
        unfold createPost
        rw [hto, hco]
        exact h
    | some t =>
      cases hco : data.content? with
      | none =>
        unfold createPost
        rw [hto, hco]
        exact h
      | some c =>
        unfold createPost
        rw [hto, hco]
        dsimp only
        unfold idsNodup
        rw [List.map_append, List.nodup_append]
        refine ⟨h, by simp, ?_⟩
        intro x hx1 hx2
        simp only [List.map_cons, List.map_nil, List.mem_cons,
          List.not_mem_nil, or_false] at hx2
        obtain ⟨q, hq, hqx⟩ := List.mem_map.mp hx1
        cases posts with
        | nil => simp at hq
        | cons a ps =>
          subst hx2
          have := le_maxId (a :: ps) q hq
          dsimp only at hqx
          omega
  · intro data t c ht hc newPost hok p hp
    unfold createPost at hok
    rw [ht, hc] at hok
    dsimp only at hok
    rw [Resp.ok.injEq] at hok
    rw [← hok.2]
    cases posts with
    | nil => simp at hp
    | cons a ps =>
      have := le_maxId (a :: ps) p hp
      dsimp only
      omega
  · intro postId data
    have hmap : (updatePost postId data posts).2.map Post.id = posts.map Post.id := by
      cases hf : findById postId posts with
      | none =>
        unfold updatePost
        rw [hf]
      | some q =>
        unfold updatePost
        rw [hf]
        dsimp only
        exact replaceFirstById_map_id postId _ (fun p => updateFields_id data p) posts
    refine ⟨hmap, ?_⟩
    unfold idsNodup
    rw [hmap]
    exact h
  · intro postId
    cases hf : findById postId posts with
    | none =>
      unfold deletePost
      rw [hf]
      exact h
    | some q =>
      unfold deletePost
      rw [hf]
      dsimp only
      exact List.Nodup.sublist ((removeFirstById_sublist postId posts).map Post.id) h
  · intro posts' h' sortArg dirArg titleArg contentArg
    constructor
    · rw [getPosts_snd]
      exact h'
    · rw [searchPosts_snd]
      exact h'

theorem operations_preserve_id_invariant_witness :
    (∀ data : Body String, idsNodup (createPost data POSTS).2) ∧
    (∀ (data : Body String) t c, data.title? = some t → data.content? = some c →
      ∀ newPost : Post String, (createPost data POSTS).1 = Resp.ok 201 newPost →
        ∀ p ∈ POSTS, p.id < newPost.id) ∧
    (∀ postId (data : Body String),
      (updatePost postId data POSTS).2.map Post.id = POSTS.map Post.id ∧
      idsNodup (updatePost postId data POSTS).2) ∧
    (∀ postId, idsNodup (deletePost postId POSTS).2) ∧
    (∀ posts' : Store String, idsNodup posts' →
      ∀ sortArg dirArg titleArg contentArg,
        idsNodup (getPosts sortArg dirArg posts').2 ∧
        idsNodup (searchPosts titleArg contentArg posts').2) :=
  operations_preserve_id_invariant POSTS (by unfold idsNodup; decide)

end Masterblog
